import Mathlib

/-!
Verification of the codepilot tool-integration and routing subsystem.

This file gives a shallow embedding of the pure fragment of the Rust
sources (src/clients/supabase.rs, src/agents/linear.rs,
src/agents/supabase.rs) and proves properties of it.

Modelling conventions:
* `serde_json::Value` is modelled by the inductive `Json`, with numbers
  restricted to integers (every numeric literal appearing in the program
  and in its wire payloads is an integer).
* String scanning is done over `List Char` with structural recursion so
  that every definition evaluates inside the kernel.  Rust byte-slicing
  of the `"data: "` prefix agrees with character-dropping because the
  prefix is ASCII.  `str::to_lowercase` and `char::is_whitespace` agree
  with their ASCII counterparts on all inputs used by the program.
* `f32` relevance scores are modelled exactly, scaled by 100 to `Nat`:
  every contribution of the scoring table (1.0, 0.8, 0.7, 0.56, 0.5,
  0.2) is an exact multiple of 0.01.
* Effects are made explicit: the HTTP transport of a discovery call
  becomes a function from the attempt number to a response, the
  wall-clock timestamp taken by `chrono::Utc::now().to_rfc3339()`
  becomes an explicit argument, and agent functions return the action
  they perform (invoke a tool with a payload, or answer with a
  suggestion message) instead of performing network I/O.
-/

namespace Codepilot

/-- JSON values, mirroring `serde_json::Value` with integer numbers.
Objects keep their fields in order; the program never constructs
duplicate keys. -/
inductive Json where
  | null
  | bool (b : Bool)
  | num (n : Int)
  | str (s : String)
  | arr (elems : List Json)
  | obj (fields : List (String × Json))
deriving Repr

/-! ## Character-list string utilities -/

/-- Decides whether the first list is a prefix of the second. -/
def charsPre : List Char → List Char → Bool
  | [], _ => true
  | _ :: _, [] => false
  | a :: as, b :: bs => a == b && charsPre as bs

/-- Decides whether `needle` occurs as a contiguous subsequence of the
second list; the empty needle occurs everywhere, matching Rust
`str::contains`. -/
def charsHas (needle : List Char) : List Char → Bool
  | [] => needle.isEmpty
  | c :: tl => charsPre needle (c :: tl) || charsHas needle tl

/-- Rust `hay.contains(needle)` (substring containment). -/
def strHas (hay needle : String) : Bool := charsHas needle.data hay.data

/-- Rust `s.starts_with(p)`. -/
def strBegins (s p : String) : Bool := charsPre p.data s.data

/-- Rust `s.to_lowercase()` (ASCII fragment). -/
def strLower (s : String) : String := String.mk (s.data.map Char.toLower)

/-- Rust `s.chars().take(n).collect::<String>()`. -/
def strTake (s : String) (n : Nat) : String := String.mk (s.data.take n)

/-- Drops the first `n` characters; used to strip the ASCII prefix
`"data: "`, where byte indexing and character indexing agree. -/
def strDropN (s : String) (n : Nat) : String := String.mk (s.data.drop n)

/-- Splits a character list at newline characters; the result is always
nonempty. -/
def splitNl : List Char → List (List Char)
  | [] => [[]]
  | c :: cs =>
    match splitNl cs with
    | [] => [[]]
    | l :: ls => if c == '\n' then [] :: l :: ls else (c :: l) :: ls

/-- Removes one trailing carriage return, as Rust `str::lines` does. -/
def stripCr (l : List Char) : List Char :=
  match l.getLast? with
  | some c => if c == '\r' then l.dropLast else l
  | none => l

/-- Rust `str::lines`: split at newlines, drop a final empty segment
produced by a trailing newline, strip one trailing carriage return per
line. -/
def respLines (s : String) : List String :=
  let parts := splitNl s.data
  let parts := if parts.getLast? = some [] then parts.dropLast else parts
  parts.map (fun l => String.mk (stripCr l))

/-- Splits a character list at whitespace characters. -/
def splitByWs : List Char → List (List Char)
  | [] => [[]]
  | c :: cs =>
    match splitByWs cs with
    | [] => [[]]
    | l :: ls => if c.isWhitespace then [] :: l :: ls else (c :: l) :: ls

/-- Rust `str::split_whitespace`: whitespace-separated tokens, empty
tokens discarded. -/
def splitWhitespace (s : String) : List String :=
  ((splitByWs s.data).map String.mk).filter (fun w => w != "")

/-! ## JSON parsing (serde_json::from_str on the fragment the program
exchanges: null, booleans, integers, strings with simple escapes,
arrays, objects) -/

/-- Skips JSON insignificant whitespace. -/
def skipWs : List Char → List Char
  | [] => []
  | c :: cs => if c == ' ' || c == '\t' || c == '\n' || c == '\r' then skipWs cs else c :: cs

/-- Decodes a one-character JSON string escape. -/
def escChar (e : Char) : Option Char :=
  if e == '"' then some '"'
  else if e == '\\' then some '\\'
  else if e == '/' then some '/'
  else if e == 'n' then some '\n'
  else if e == 't' then some '\t'
  else if e == 'r' then some '\r'
  else if e == 'b' then some (Char.ofNat 8)
  else if e == 'f' then some (Char.ofNat 12)
  else none

/-- Parses the body of a JSON string after the opening quote, returning
the content and the input after the closing quote. -/
def parseStrChars : List Char → Option (List Char × List Char)
  | [] => none
  | c :: cs =>
    if c == '"' then some ([], cs)
    else if c == '\\' then
      match cs with
      | [] => none
      | e :: cs2 =>
        match escChar e with
        | some d =>
          match parseStrChars cs2 with
          | some (content, rest) => some (d :: content, rest)
          | none => none
        | none => none
    else
      match parseStrChars cs with
      | some (content, rest) => some (c :: content, rest)
      | none => none

/-- Takes a maximal run of decimal digits. -/
def takeDigits : List Char → List Char × List Char
  | [] => ([], [])
  | c :: cs =>
    if c.isDigit then
      let (ds, r) := takeDigits cs
      (c :: ds, r)
    else ([], c :: cs)

/-- Numeric value of a digit run. -/
def digitsToNat (ds : List Char) : Nat :=
  ds.foldl (fun n c => n * 10 + (c.toNat - 48)) 0

/-- Fuel-indexed JSON value parser.  A comma inside an array or object
is handled by re-entering the bracket case on the remaining input, so a
single structurally recursive function suffices. -/
def parseValF : Nat → List Char → Option (Json × List Char)
  | 0, _ => none
  | fuel + 1, input =>
    match skipWs input with
    | [] => none
    | c :: cs =>
      if c == 'n' then
        match cs with
        | 'u' :: 'l' :: 'l' :: rest => some (.null, rest)
        | _ => none
      else if c == 't' then
        match cs with
        | 'r' :: 'u' :: 'e' :: rest => some (.bool true, rest)
        | _ => none
      else if c == 'f' then
        match cs with
        | 'a' :: 'l' :: 's' :: 'e' :: rest => some (.bool false, rest)
        | _ => none
      else if c == '"' then
        match parseStrChars cs with
        | some (content, rest) => some (.str (String.mk content), rest)
        | none => none
      else if c == '-' then
        match takeDigits cs with
        | ([], _) => none
        | (ds, rest) => some (.num (-(digitsToNat ds : Int)), rest)
      else if c.isDigit then
        match takeDigits (c :: cs) with
        | (ds, rest) => some (.num (digitsToNat ds), rest)
      else if c == '[' then
        match skipWs cs with
        | ']' :: rest => some (.arr [], rest)
        | cs1 =>
          match parseValF fuel cs1 with
          | some (v, rest) =>
            match skipWs rest with
            | ',' :: rest2 =>
              match parseValF fuel ('[' :: rest2) with
              | some (Json.arr vs, rest3) => some (.arr (v :: vs), rest3)
              | _ => none
            | ']' :: rest2 => some (.arr [v], rest2)
            | _ => none
          | none => none
      else if c == '\x7b' then
        match skipWs cs with
        | '\x7d' :: rest => some (.obj [], rest)
        | '"' :: cs1 =>
          match parseStrChars cs1 with
          | some (key, rest) =>
            match skipWs rest with
            | ':' :: rest2 =>
              match parseValF fuel rest2 with
              | some (v, rest3) =>
                match skipWs rest3 with
                | ',' :: rest4 =>
                  match parseValF fuel ('\x7b' :: rest4) with
                  | some (Json.obj kvs, rest5) => some (.obj ((String.mk key, v) :: kvs), rest5)
                  | _ => none
                | '\x7d' :: rest4 => some (.obj [(String.mk key, v)], rest4)
                | _ => none
              | none => none
            | _ => none
          | none => none
        | _ => none
      else none

/-- Rust `serde_json::from_str::<Value>`: parse one value and require
only whitespace after it. -/
def parseJson (s : String) : Option Json :=
  match parseValF (4 * s.data.length + 16) s.data with
  | some (v, rest) => if (skipWs rest).isEmpty then some v else none
  | none => none

/-- Indexing `v[key]` of `serde_json`: the field of an object, `Null`
for a missing field or a non-object. -/
def jGet (v : Json) (key : String) : Json :=
  match v with
  | .obj fields =>
    match fields.find? (fun p => p.1 == key) with
    | some p => p.2
    | none => .null
  | _ => .null

/-! ## Protocol client (src/clients/supabase.rs) -/

/-- Scans the response lines of a discovery call exactly as
`SupabaseMCPClient::get_tools` does on a successful HTTP status: for
every line beginning with `"data: "`, parse the remainder and return
the first `result.tools` array found; otherwise fail. -/
def scanToolsLines : List String → Except String (List Json)
  | [] => .error "No valid tools found in SSE response"
  | l :: ls =>
    if strBegins l "data: " then
      match parseJson (strDropN l 6) with
      | some v =>
        match jGet (jGet v "result") "tools" with
        | Json.arr tools => .ok tools
        | _ => scanToolsLines ls
      | none => scanToolsLines ls
    else scanToolsLines ls

/-- Body decoding of `get_tools` on a 2xx response. -/
def decodeGetToolsBody (body : String) : Except String (List Json) :=
  scanToolsLines (respLines body)

/-- An HTTP response as seen by the client: status code and body text. -/
structure HttpResp where
  status : Nat
  body : String

/-- Display form of an `http::StatusCode` (code plus canonical reason
phrase); only 429 is needed by the proofs, other codes fall back to the
bare number. -/
def statusDisplay (code : Nat) : String :=
  if code == 429 then "429 Too Many Requests" else toString code

/-- Observable outcome of one `get_tools` call: the returned value, the
sleep durations (in seconds) performed between attempts, and the number
of HTTP requests sent. -/
structure GetToolsTrace where
  result : Except String (List Json)
  sleeps : List Nat
  attempts : Nat
deriving Repr

/-- The `for attempt in 1..=3` loop of `get_tools`.  `transport` maps
the attempt number to the HTTP response of that attempt. -/
def getToolsLoop (transport : Nat → HttpResp) (sleeps : List Nat) :
    List Nat → GetToolsTrace
  | [] =>
    { result := .error "Failed to fetch tools from Supabase MCP after 3 attempts"
      sleeps := sleeps
      attempts := 3 }
  | attempt :: rest =>
    let r := transport attempt
    if 200 ≤ r.status && r.status ≤ 299 then
      { result := decodeGetToolsBody r.body, sleeps := sleeps, attempts := attempt }
    else if r.status == 429 && attempt < 3 then
      getToolsLoop transport (sleeps ++ [attempt * 2]) rest
    else
      { result := .error ("Failed to fetch tools from Supabase MCP: " ++ statusDisplay r.status)
        sleeps := sleeps
        attempts := attempt }

/-- One `get_tools` call, attempts numbered 1, 2, 3. -/
def getToolsModel (transport : Nat → HttpResp) : GetToolsTrace :=
  getToolsLoop transport [] [1, 2, 3]

/-- Extracts `v["result"]` when it is an object, as
`response_data["result"].as_object()` does in `execute_tool`. -/
def resultObj (v : Json) : Option Json :=
  match jGet v "result" with
  | .obj fields => some (.obj fields)
  | _ => none

/-- One line of the `execute_tool` SSE scan: a `"data: "` line whose
remainder parses and whose `result` is an object yields that object. -/
def lineResultObj (l : String) : Option Json :=
  if strBegins l "data: " then
    match parseJson (strDropN l 6) with
    | some v => resultObj v
    | none => none
  else none

/-- The SSE scanning loop of `execute_tool`. -/
def scanResultLines : List String → Option Json
  | [] => none
  | l :: ls =>
    match lineResultObj l with
    | some r => some r
    | none => scanResultLines ls

/-- Whole-body fallback of `execute_tool`: parse the entire body as one
envelope and extract an object `result`. -/
def bodyResultObj (body : String) : Option Json :=
  match parseJson body with
  | some v => resultObj v
  | none => none

/-- Body decoding of `execute_tool` on a 2xx response: first the SSE
line scan, then the bare-JSON fallback, else the decode error. -/
def decodeExecuteToolBody (body : String) : Except String Json :=
  match scanResultLines (respLines body) with
  | some r => .ok r
  | none =>
    match bodyResultObj body with
    | some r => .ok r
    | none => .error "No valid result found in response"

/-! ## Tool catalog and relevance scoring (src/agents/linear.rs,
src/agents/supabase.rs) -/

/-- A discovered tool descriptor (`ToolInfo` in both agent files). -/
structure ToolInfo where
  name : String
  description : String
  inputSchema : Json
deriving Repr

/-- One row of the scoring table: concept, keyword set, weight.  The
weight is scaled by 100 (`100` stands for `1.0`, `80` for `0.8`). -/
abbrev ScorePattern := String × List String × Nat

/-- The `patterns` table of `LinearAgent::calculate_tool_relevance_score`. -/
def linearPatterns : List ScorePattern :=
  [("list", ["list", "show", "get", "fetch", "display"], 100),
   ("create", ["create", "new", "add", "make"], 100),
   ("update", ["update", "modify", "change", "edit"], 100),
   ("delete", ["delete", "remove", "destroy"], 100),
   ("issue", ["issue", "ticket", "task", "bug"], 80),
   ("comment", ["comment", "reply", "note"], 80),
   ("assign", ["assign", "allocate"], 80)]

/-- The `patterns` table of `SupabaseAgent::calculate_tool_relevance_score`. -/
def supabasePatterns : List ScorePattern :=
  [("list", ["list", "show", "get", "fetch", "display"], 100),
   ("create", ["create", "new", "add", "make"], 100),
   ("update", ["update", "modify", "change", "edit"], 100),
   ("delete", ["delete", "remove", "destroy"], 100),
   ("table", ["table", "schema", "database"], 80),
   ("record", ["record", "row", "data", "entry"], 80),
   ("select", ["select", "query", "read", "get"], 80),
   ("insert", ["insert", "add", "create", "new"], 80)]

/-- Relevance score of one tool for a lowercased query
(`calculate_tool_relevance_score`; both agents share this code modulo
the pattern table).  For every table row whose keyword occurs in the
query, the weight is added when the tool name or description contains
the concept, and 0.7 times the weight when it contains the keyword
itself; every whitespace token of the query adds 0.5 when contained in
the name and 0.2 when contained in the description.  Scores are scaled
by 100, so `weight * 0.7` is `weight * 7 / 10` (exact on the table
weights 100 and 80). -/
def calculateToolRelevanceScore (patterns : List ScorePattern)
    (queryLower : String) (tool : ToolInfo) : Nat :=
  let nameL := strLower tool.name
  let descL := strLower tool.description
  let patternScore := (patterns.map (fun p =>
    (p.2.1.map (fun kw =>
      if strHas queryLower kw then
        (if strHas nameL p.1 || strHas descL p.1 then p.2.2 else 0) +
        (if strHas nameL kw || strHas descL kw then p.2.2 * 7 / 10 else 0)
      else 0)).sum)).sum
  let wordScore := ((splitWhitespace queryLower).map (fun w =>
    (if strHas nameL w then 50 else 0) + (if strHas descL w then 20 else 0))).sum
  patternScore + wordScore

/-! ## Candidate ordering -/

/-- Inserts a scored candidate into a list sorted by descending score,
after every element of greater or equal score.  This realizes Rust's
stable `sort_by(|a, b| b.0.partial_cmp(&a.0))`: a stable sort's output
is uniquely determined by the comparator and the input order. -/
def insertScored (x : Nat × ToolInfo) : List (Nat × ToolInfo) → List (Nat × ToolInfo)
  | [] => [x]
  | y :: ys => if x.1 ≤ y.1 then y :: insertScored x ys else x :: y :: ys

/-- Stable sort by descending score. -/
def sortScoredDesc (l : List (Nat × ToolInfo)) : List (Nat × ToolInfo) :=
  l.foldl (fun acc x => insertScored x acc) []

/-! ## Argument synthesis -/

/-- Payload synthesis of `LinearAgent::create_dynamic_arguments`.  The
`inputSchema` argument is accepted and ignored, as in the source. -/
def linearCreateDynamicArguments (toolName : String) (inputSchema : Json)
    (query : String) : Json :=
  let _ := inputSchema
  let toolNameLower := strLower toolName
  if strHas toolNameLower "list" && strHas toolNameLower "issue" then
    .obj [("first", .num 10), ("orderBy", .str "updatedAt")]
  else if strHas toolNameLower "create" && strHas toolNameLower "issue" then
    let title :=
      if strHas query "bug" then "Bug Report"
      else if strHas query "feature" then "Feature Request"
      else strTake query 50
    .obj [("title", .str title), ("description", .str query)]
  else if strHas toolNameLower "update" then
    .obj [("description", .str query)]
  else if strHas toolNameLower "comment" then
    .obj [("body", .str query)]
  else
    .obj []

/-- Payload synthesis of `SupabaseAgent::create_dynamic_arguments`.
`now` is the value of `chrono::Utc::now().to_rfc3339()` at the moment
of the call, made an explicit argument; the `inputSchema` argument is
accepted and ignored, as in the source. -/
def supabaseCreateDynamicArguments (toolName : String) (inputSchema : Json)
    (query : String) (now : String) : Json :=
  let _ := inputSchema
  let toolNameLower := strLower toolName
  if strHas toolNameLower "list" && strHas toolNameLower "table" then
    .obj []
  else if strHas toolNameLower "select" || strHas toolNameLower "get" then
    .obj [("table", .str "ai_generated_records"), ("columns", .str "*"),
          ("limit", .num 10)]
  else if strHas toolNameLower "insert" || strHas toolNameLower "create" then
    .obj [("table", .str "ai_generated_records"),
          ("data", .obj [("query", .str query), ("created_at", .str now)])]
  else if strHas toolNameLower "update" || strHas toolNameLower "modify" then
    .obj [("table", .str "ai_generated_records"),
          ("data", .obj [("updated_at", .str now)]),
          ("filter", .obj [("id", .str "eq.1")])]
  else if strHas toolNameLower "delete" || strHas toolNameLower "remove" then
    .obj [("table", .str "ai_generated_records"),
          ("filter", .obj [("id", .str "eq.1")])]
  else
    .obj []

/-! ## Selection and execution (the agents' pure decision logic) -/

/-- The action an agent takes after scoring: invoke one tool with a
synthesized payload, or answer with a suggestion message without any
invocation. -/
inductive OpAction where
  | invoke (tool : ToolInfo) (args : Json)
  | suggest (message : String)
deriving Repr

/-- The suggestion entries built on the no-match path: the first 5
catalog entries, each as name plus description truncated to 80
characters. -/
def suggestionLines (catalog : List ToolInfo) : List String :=
  (catalog.take 5).map (fun tool => "- " ++ tool.name ++ ": " ++ strTake tool.description 80)

/-- The no-match message (`provider` is the provider name interpolated
into the text, "Linear" or "Supabase"). -/
def noMatchMessage (provider : String) (query : String)
    (catalog : List ToolInfo) : String :=
  "No relevant " ++ provider ++ " tool found for your query: '" ++ query ++
    "'\n\nAvailable tools (showing top 5):\n" ++
    String.intercalate "\n" (suggestionLines catalog)

/-- Scorer-driven selection shared verbatim (modulo the pattern table,
the provider name in messages and the argument synthesizer) by
`LinearAgent::try_execute_linear_operation_with_guidance` and
`SupabaseAgent::try_execute_supabase_operation`: score every tool,
sort descending by score (stable), and invoke the top tool when its
score is strictly positive, else take the suggestion path. -/
def tryExecuteOperation (patterns : List ScorePattern) (provider : String)
    (mkArgs : String → Json → String → Json)
    (catalog : List ToolInfo) (query : String) : OpAction :=
  let queryLower := strLower query
  let scoredTools := catalog.map (fun tool =>
    (calculateToolRelevanceScore patterns queryLower tool, tool))
  match sortScoredDesc scoredTools with
  | (score, tool) :: _ =>
    if 0 < score then
      .invoke tool (mkArgs tool.name tool.inputSchema query)
    else
      .suggest (noMatchMessage provider query catalog)
  | [] => .suggest (noMatchMessage provider query catalog)

/-- Instance for `LinearAgent::try_execute_linear_operation_with_guidance`;
the `llmGuidance` parameter is accepted and ignored, as in the source. -/
def tryExecuteLinearOperationWithGuidance (catalog : List ToolInfo)
    (query : String) (llmGuidance : String) : OpAction :=
  let _ := llmGuidance
  tryExecuteOperation linearPatterns "Linear" linearCreateDynamicArguments catalog query

/-- Instance for `SupabaseAgent::try_execute_supabase_operation`.
`now` threads the wall-clock timestamp into the argument synthesizer. -/
def tryExecuteSupabaseOperation (now : String) (catalog : List ToolInfo)
    (query : String) : OpAction :=
  tryExecuteOperation supabasePatterns "Supabase"
    (fun n s q => supabaseCreateDynamicArguments n s q now) catalog query

/-- Whether the lowercased LLM reply contains the lowercased tool name
or the lowercased tool description as a substring. -/
def guidanceMentions (guidanceLower : String) (tool : ToolInfo) : Bool :=
  strHas guidanceLower (strLower tool.name) || strHas guidanceLower (strLower tool.description)

/-- The accumulation loop over the catalog in
`try_execute_*_operation_with_llm_guidance`: among mentioned tools,
keep the one of strictly greatest relevance score, starting from
`(None, 0.0)`. -/
def findBestMentioned (patterns : List ScorePattern)
    (queryLower guidanceLower : String) :
    List ToolInfo → Option ToolInfo × Nat → Option ToolInfo × Nat
  | [], acc => acc
  | tool :: rest, (best, bestScore) =>
    if guidanceMentions guidanceLower tool then
      let score := calculateToolRelevanceScore patterns queryLower tool
      if bestScore < score then
        findBestMentioned patterns queryLower guidanceLower rest (some tool, score)
      else
        findBestMentioned patterns queryLower guidanceLower rest (best, bestScore)
    else
      findBestMentioned patterns queryLower guidanceLower rest (best, bestScore)

/-- LLM-guided selection shared verbatim (modulo provider
specifics) by `try_execute_linear_operation_with_llm_guidance` and
`try_execute_supabase_operation_with_llm_guidance`: if the guidance
text mentions a tool, take the best-scoring mentioned tool and invoke
it; otherwise fall back to the scorer path with an empty guidance
string. -/
def tryExecuteOperationWithLlmGuidance (patterns : List ScorePattern)
    (provider : String) (mkArgs : String → Json → String → Json)
    (catalog : List ToolInfo) (query : String) (llmGuidance : String) : OpAction :=
  let queryLower := strLower query
  let guidanceLower := strLower llmGuidance
  match findBestMentioned patterns queryLower guidanceLower catalog (none, 0) with
  | (some tool, _) => .invoke tool (mkArgs tool.name tool.inputSchema query)
  | (none, _) => tryExecuteOperation patterns provider mkArgs catalog query

/-- Instance for `LinearAgent::try_execute_linear_operation_with_llm_guidance`. -/
def tryExecuteLinearOperationWithLlmGuidance (catalog : List ToolInfo)
    (query : String) (llmGuidance : String) : OpAction :=
  tryExecuteOperationWithLlmGuidance linearPatterns "Linear"
    linearCreateDynamicArguments catalog query llmGuidance

/-! ## Helper lemmas -/

theorem data_append (a b : String) : (a ++ b).data = a.data ++ b.data := rfl

theorem charsPre_self_append : ∀ (p r : List Char), charsPre p (p ++ r) = true
  | [], _ => rfl
  | a :: as, r => by
    simp only [List.cons_append, charsPre, beq_self_eq_true, Bool.true_and]
    exact charsPre_self_append as r

theorem strBegins_append (pre x : String) : strBegins (pre ++ x) pre = true := by
  unfold strBegins
  rw [data_append]
  exact charsPre_self_append pre.data x.data

theorem strDropN_append (pre x : String) (n : Nat) (h : pre.data.length = n) :
    strDropN (pre ++ x) n = x := by
  unfold strDropN
  rw [data_append, ← h, List.drop_left]

theorem mem_insertScored {x z : Nat × ToolInfo} :
    ∀ {l : List (Nat × ToolInfo)}, z ∈ insertScored x l ↔ z = x ∨ z ∈ l := by
  intro l
  induction l with
  | nil => simp [insertScored]
  | cons y ys ih =>
    unfold insertScored
    split
    · simp only [List.mem_cons, ih]
      tauto
    · exact List.mem_cons

theorem pairwise_insertScored {x : Nat × ToolInfo} :
    ∀ {l : List (Nat × ToolInfo)},
      l.Pairwise (fun a b => b.1 ≤ a.1) →
      (insertScored x l).Pairwise (fun a b => b.1 ≤ a.1) := by
  intro l
  induction l with
  | nil => intro _; simp [insertScored]
  | cons y ys ih =>
    intro hl
    rw [List.pairwise_cons] at hl
    obtain ⟨hy, hys⟩ := hl
    unfold insertScored
    split
    · rename_i hle
      rw [List.pairwise_cons]
      refine ⟨?_, ih hys⟩
      intro z hz
      rcases mem_insertScored.1 hz with rfl | hz2
      · exact hle
      · exact hy z hz2
    · rename_i hgt
      push_neg at hgt
      rw [List.pairwise_cons]
      constructor
      · intro z hz
        rcases List.mem_cons.1 hz with rfl | hz2
        · exact Nat.le_of_lt hgt
        · exact Nat.le_trans (hy z hz2) (Nat.le_of_lt hgt)
      · rw [List.pairwise_cons]
        exact ⟨hy, hys⟩

theorem filter_insertScored (s : Nat) (x : Nat × ToolInfo) :
    ∀ (l : List (Nat × ToolInfo)),
      l.Pairwise (fun a b => b.1 ≤ a.1) →
      (insertScored x l).filter (fun z => z.1 == s) =
        l.filter (fun z => z.1 == s) ++ (if x.1 == s then [x] else []) := by
  intro l
  induction l with
  | nil =>
    intro _
    simp [insertScored, List.filter_cons]
  | cons y ys ih =>
    intro hl
    rw [List.pairwise_cons] at hl
    obtain ⟨hy, hys⟩ := hl
    unfold insertScored
    split
    · rename_i hle
      rw [List.filter_cons, List.filter_cons]
      split
      · rw [ih hys, List.cons_append]
      · exact ih hys
    · rename_i hgt
      push_neg at hgt
      rw [List.filter_cons]
      split
      · rename_i hxs
        have hxs2 : x.1 = s := by simpa using hxs
        have hnil : (y :: ys).filter (fun z => z.1 == s) = [] := by
          apply List.filter_eq_nil_iff.2
          intro z hz
          have hzlt : z.1 < s := by
            rcases List.mem_cons.1 hz with rfl | hz2
            · omega
            · have := hy z hz2
              omega
          simp
          omega
        rw [hnil]
        simp [hxs2]
      · rename_i hxs
        have hxs2 : ¬ x.1 = s := by simpa using hxs
        rw [List.filter_cons]
        simp [hxs2]

theorem insertScored_perm (x : Nat × ToolInfo) :
    ∀ (l : List (Nat × ToolInfo)), List.Perm (insertScored x l) (x :: l) := by
  intro l
  induction l with
  | nil => simp [insertScored]
  | cons y ys ih =>
    unfold insertScored
    split
    · exact List.Perm.trans (ih.cons y) (List.Perm.swap x y ys)
    · exact List.Perm.refl _

theorem sortAux_pairwise :
    ∀ (l acc : List (Nat × ToolInfo)),
      acc.Pairwise (fun a b => b.1 ≤ a.1) →
      (l.foldl (fun acc x => insertScored x acc) acc).Pairwise (fun a b => b.1 ≤ a.1) := by
  intro l
  induction l with
  | nil => intro acc h; exact h
  | cons x xs ih =>
    intro acc h
    exact ih (insertScored x acc) (pairwise_insertScored h)

theorem sortAux_filter (s : Nat) :
    ∀ (l acc : List (Nat × ToolInfo)),
      acc.Pairwise (fun a b => b.1 ≤ a.1) →
      (l.foldl (fun acc x => insertScored x acc) acc).filter (fun z => z.1 == s) =
        acc.filter (fun z => z.1 == s) ++ l.filter (fun z => z.1 == s) := by
  intro l
  induction l with
  | nil => intro acc _; simp
  | cons x xs ih =>
    intro acc h
    show (xs.foldl (fun acc x => insertScored x acc) (insertScored x acc)).filter _ = _
    rw [ih (insertScored x acc) (pairwise_insertScored h)]
    rw [filter_insertScored s x acc h]
    rw [List.filter_cons]
    split <;> simp

theorem sortAux_perm :
    ∀ (l acc : List (Nat × ToolInfo)),
      List.Perm (l.foldl (fun acc x => insertScored x acc) acc) (l ++ acc) := by
  intro l
  induction l with
  | nil => intro acc; simp
  | cons x xs ih =>
    intro acc
    show List.Perm (xs.foldl (fun acc x => insertScored x acc) (insertScored x acc)) _
    refine List.Perm.trans (ih (insertScored x acc)) ?_
    refine List.Perm.trans ((insertScored_perm x acc).append_left xs) ?_
    exact List.perm_middle

theorem sortScoredDesc_pairwise (l : List (Nat × ToolInfo)) :
    (sortScoredDesc l).Pairwise (fun a b => b.1 ≤ a.1) :=
  sortAux_pairwise l [] (by simp)

theorem sortScoredDesc_filter (l : List (Nat × ToolInfo)) (s : Nat) :
    (sortScoredDesc l).filter (fun z => z.1 == s) = l.filter (fun z => z.1 == s) := by
  have h := sortAux_filter s l [] (by simp)
  simpa [sortScoredDesc] using h

theorem sortScoredDesc_perm (l : List (Nat × ToolInfo)) :
    List.Perm (sortScoredDesc l) l := by
  have h := sortAux_perm l []
  simpa [sortScoredDesc] using h

theorem sortScoredDesc_head_max {l : List (Nat × ToolInfo)} {hd : Nat × ToolInfo}
    {tl : List (Nat × ToolInfo)} (hs : sortScoredDesc l = hd :: tl) :
    ∀ z ∈ l, z.1 ≤ hd.1 := by
  intro z hz
  have hz2 : z ∈ sortScoredDesc l := (sortScoredDesc_perm l).symm.subset hz
  rw [hs] at hz2
  rcases List.mem_cons.1 hz2 with rfl | hz3
  · exact Nat.le_refl _
  · have hp := sortScoredDesc_pairwise l
    rw [hs, List.pairwise_cons] at hp
    exact hp.1 z hz3

theorem tryExecuteOperation_suggest (patterns : List ScorePattern) (provider : String)
    (mkArgs : String → Json → String → Json) (catalog : List ToolInfo) (query : String)
    (h : ∀ t ∈ catalog, calculateToolRelevanceScore patterns (strLower query) t = 0) :
    tryExecuteOperation patterns provider mkArgs catalog query
      = .suggest (noMatchMessage provider query catalog) := by
  have hz : ∀ z ∈ catalog.map (fun tool =>
      (calculateToolRelevanceScore patterns (strLower query) tool, tool)), z.1 = 0 := by
    intro z hzm
    obtain ⟨t, ht, rfl⟩ := List.mem_map.1 hzm
    exact h t ht
  rcases hsort : sortScoredDesc (catalog.map (fun tool =>
      (calculateToolRelevanceScore patterns (strLower query) tool, tool))) with _ | ⟨⟨s0, t0⟩, tl⟩
  · simp [tryExecuteOperation, hsort]
  · have hmem : (s0, t0) ∈ sortScoredDesc (catalog.map (fun tool =>
        (calculateToolRelevanceScore patterns (strLower query) tool, tool))) := by
      rw [hsort]; exact List.mem_cons_self _ _
    have hs0 : s0 = 0 := hz _ ((sortScoredDesc_perm _).subset hmem)
    simp [tryExecuteOperation, hsort, hs0]

theorem tryExecuteOperation_invoke_iff (patterns : List ScorePattern) (provider : String)
    (mkArgs : String → Json → String → Json) (catalog : List ToolInfo) (query : String) :
    (∃ t ∈ catalog, 0 < calculateToolRelevanceScore patterns (strLower query) t) ↔
      ∃ tool args, tryExecuteOperation patterns provider mkArgs catalog query
        = .invoke tool args := by
  constructor
  · rintro ⟨t, ht, hpos⟩
    have hmem : (calculateToolRelevanceScore patterns (strLower query) t, t)
        ∈ catalog.map (fun tool =>
          (calculateToolRelevanceScore patterns (strLower query) tool, tool)) :=
      List.mem_map.2 ⟨t, ht, rfl⟩
    rcases hsort : sortScoredDesc (catalog.map (fun tool =>
        (calculateToolRelevanceScore patterns (strLower query) tool, tool))) with _ | ⟨⟨s0, t0⟩, tl⟩
    · have := (sortScoredDesc_perm _).symm.subset hmem
      rw [hsort] at this
      simp at this
    · have hle := sortScoredDesc_head_max hsort _ hmem
      have hpos0 : 0 < s0 := Nat.lt_of_lt_of_le hpos hle
      refine ⟨t0, mkArgs t0.name t0.inputSchema query, ?_⟩
      simp [tryExecuteOperation, hsort, hpos0]
  · rintro ⟨tool, args, heq⟩
    rcases hsort : sortScoredDesc (catalog.map (fun tool =>
        (calculateToolRelevanceScore patterns (strLower query) tool, tool))) with _ | ⟨⟨s0, t0⟩, tl⟩
    · simp [tryExecuteOperation, hsort] at heq
    · by_cases hpos0 : 0 < s0
      · have hmem : (s0, t0) ∈ sortScoredDesc (catalog.map (fun tool =>
            (calculateToolRelevanceScore patterns (strLower query) tool, tool))) := by
          rw [hsort]; exact List.mem_cons_self _ _
        obtain ⟨t, ht, hpair⟩ := List.mem_map.1 ((sortScoredDesc_perm _).subset hmem)
        refine ⟨t, ht, ?_⟩
        have hs : calculateToolRelevanceScore patterns (strLower query) t = s0 := by
          have := congrArg Prod.fst hpair
          simpa using this
        omega
      · simp [tryExecuteOperation, hsort, hpos0] at heq

theorem patternScore_zero (patterns : List ScorePattern) (queryLower : String)
    (nameL descL : String)
    (h : ∀ p ∈ patterns, ∀ kw ∈ p.2.1, strHas queryLower kw = false) :
    (patterns.map (fun p =>
      (p.2.1.map (fun kw =>
        if strHas queryLower kw then
          (if strHas nameL p.1 || strHas descL p.1 then p.2.2 else 0) +
          (if strHas nameL kw || strHas descL kw then p.2.2 * 7 / 10 else 0)
        else 0)).sum)).sum = 0 := by
  apply List.sum_eq_zero
  intro x hx
  obtain ⟨p, hp, rfl⟩ := List.mem_map.1 hx
  apply List.sum_eq_zero
  intro y hy
  obtain ⟨kw, hkw, rfl⟩ := List.mem_map.1 hy
  rw [h p hp kw hkw]
  rfl

theorem score_eq_zero (patterns : List ScorePattern) (queryLower : String) (tool : ToolInfo)
    (hpat : ∀ p ∈ patterns, ∀ kw ∈ p.2.1, strHas queryLower kw = false)
    (hname : ∀ w ∈ splitWhitespace queryLower, strHas (strLower tool.name) w = false)
    (hdesc : ∀ w ∈ splitWhitespace queryLower, strHas (strLower tool.description) w = false) :
    calculateToolRelevanceScore patterns queryLower tool = 0 := by
  show (patterns.map (fun p =>
      (p.2.1.map (fun kw =>
        if strHas queryLower kw then
          (if strHas (strLower tool.name) p.1 || strHas (strLower tool.description) p.1
            then p.2.2 else 0) +
          (if strHas (strLower tool.name) kw || strHas (strLower tool.description) kw
            then p.2.2 * 7 / 10 else 0)
        else 0)).sum)).sum +
    ((splitWhitespace queryLower).map (fun w =>
      (if strHas (strLower tool.name) w then 50 else 0) +
      (if strHas (strLower tool.description) w then 20 else 0))).sum = 0
  rw [patternScore_zero patterns queryLower _ _ hpat]
  have hword : ((splitWhitespace queryLower).map (fun w =>
      (if strHas (strLower tool.name) w then 50 else 0) +
      (if strHas (strLower tool.description) w then 20 else 0))).sum = 0 := by
    apply List.sum_eq_zero
    intro x hx
    obtain ⟨w, hw, rfl⟩ := List.mem_map.1 hx
    rw [hname w hw, hdesc w hw]
    rfl
  rw [hword]

theorem ite_weight_le {a b : Bool} (w : Nat) (h : a = true → b = true) :
    (if a then w else 0) ≤ (if b then w else 0) := by
  cases a <;> cases b <;> simp_all

theorem score_monotone (patterns : List ScorePattern) (queryLower : String)
    (t1 t2 : ToolInfo)
    (hname : ∀ s : String, strHas (strLower t1.name) s = true →
      strHas (strLower t2.name) s = true)
    (hdesc : ∀ s : String, strHas (strLower t1.description) s = true →
      strHas (strLower t2.description) s = true) :
    calculateToolRelevanceScore patterns queryLower t1
      ≤ calculateToolRelevanceScore patterns queryLower t2 := by
  have hor : ∀ s : String,
      (strHas (strLower t1.name) s || strHas (strLower t1.description) s) = true →
      (strHas (strLower t2.name) s || strHas (strLower t2.description) s) = true := by
    intro s hs
    rw [Bool.or_eq_true] at hs ⊢
    rcases hs with h1 | h1
    · exact Or.inl (hname s h1)
    · exact Or.inr (hdesc s h1)
  show (patterns.map (fun p =>
      (p.2.1.map (fun kw =>
        if strHas queryLower kw then
          (if strHas (strLower t1.name) p.1 || strHas (strLower t1.description) p.1
            then p.2.2 else 0) +
          (if strHas (strLower t1.name) kw || strHas (strLower t1.description) kw
            then p.2.2 * 7 / 10 else 0)
        else 0)).sum)).sum +
    ((splitWhitespace queryLower).map (fun w =>
      (if strHas (strLower t1.name) w then 50 else 0) +
      (if strHas (strLower t1.description) w then 20 else 0))).sum ≤
    (patterns.map (fun p =>
      (p.2.1.map (fun kw =>
        if strHas queryLower kw then
          (if strHas (strLower t2.name) p.1 || strHas (strLower t2.description) p.1
            then p.2.2 else 0) +
          (if strHas (strLower t2.name) kw || strHas (strLower t2.description) kw
            then p.2.2 * 7 / 10 else 0)
        else 0)).sum)).sum +
    ((splitWhitespace queryLower).map (fun w =>
      (if strHas (strLower t2.name) w then 50 else 0) +
      (if strHas (strLower t2.description) w then 20 else 0))).sum
  apply Nat.add_le_add
  · apply List.sum_le_sum
    intro p _
    apply List.sum_le_sum
    intro kw _
    by_cases hq : strHas queryLower kw
    · simp only [hq, if_true]
      exact Nat.add_le_add (ite_weight_le _ (hor p.1)) (ite_weight_le _ (hor kw))
    · simp only [Bool.not_eq_true] at hq
      simp [hq]
  · apply List.sum_le_sum
    intro w _
    exact Nat.add_le_add (ite_weight_le 50 (hname w)) (ite_weight_le 20 (hdesc w))

theorem findBestMentioned_const (patterns : List ScorePattern) (ql gl : String) :
    ∀ (ts : List ToolInfo) (b : Option ToolInfo) (bs : Nat),
      (∀ t ∈ ts, guidanceMentions gl t = true →
        calculateToolRelevanceScore patterns ql t ≤ bs) →
      findBestMentioned patterns ql gl ts (b, bs) = (b, bs) := by
  intro ts
  induction ts with
  | nil => intro b bs _; rfl
  | cons t rest ih =>
    intro b bs h
    unfold findBestMentioned
    cases hm : guidanceMentions gl t with
    | false =>
      simp only [Bool.false_eq_true, if_false]
      exact ih b bs (fun u hu => h u (List.mem_cons_of_mem t hu))
    | true =>
      have hle := h t (List.mem_cons_self t rest) hm
      simp only [if_true]
      rw [if_neg (by omega)]
      exact ih b bs (fun u hu => h u (List.mem_cons_of_mem t hu))

theorem findBestMentioned_none (patterns : List ScorePattern) (ql gl : String) :
    ∀ (ts : List ToolInfo) (b : Option ToolInfo) (bs : Nat),
      (findBestMentioned patterns ql gl ts (b, bs)).1 = none →
      b = none ∧ ∀ t ∈ ts, guidanceMentions gl t = true →
        calculateToolRelevanceScore patterns ql t ≤ bs := by
  intro ts
  induction ts with
  | nil =>
    intro b bs h
    exact ⟨h, by simp⟩
  | cons t rest ih =>
    intro b bs h
    unfold findBestMentioned at h
    cases hm : guidanceMentions gl t with
    | false =>
      rw [hm] at h
      simp only [Bool.false_eq_true, if_false] at h
      obtain ⟨hb, hrest⟩ := ih b bs h
      refine ⟨hb, ?_⟩
      intro u hu hmu
      rcases List.mem_cons.1 hu with rfl | hu2
      · rw [hmu] at hm; cases hm
      · exact hrest u hu2 hmu
    | true =>
      rw [hm] at h
      simp only [if_true] at h
      by_cases hlt : bs < calculateToolRelevanceScore patterns ql t
      · rw [if_pos hlt] at h
        obtain ⟨hb, _⟩ := ih _ _ h
        cases hb
      · rw [if_neg hlt] at h
        obtain ⟨hb, hrest⟩ := ih b bs h
        refine ⟨hb, ?_⟩
        intro u hu hmu
        rcases List.mem_cons.1 hu with rfl | hu2
        · omega
        · exact hrest u hu2 hmu

theorem findBestMentioned_some (patterns : List ScorePattern) (ql gl : String) :
    ∀ (ts : List ToolInfo) (b : Option ToolInfo) (bs : Nat) (tool : ToolInfo) (s : Nat),
      (b = none → bs = 0) →
      (∀ u, b = some u → guidanceMentions gl u = true ∧
        calculateToolRelevanceScore patterns ql u = bs ∧ 0 < bs) →
      findBestMentioned patterns ql gl ts (b, bs) = (some tool, s) →
      guidanceMentions gl tool = true ∧
      calculateToolRelevanceScore patterns ql tool = s ∧ 0 < s ∧
      (tool ∈ ts ∨ b = some tool) ∧ bs ≤ s ∧
      (∀ u ∈ ts, guidanceMentions gl u = true →
        calculateToolRelevanceScore patterns ql u ≤ s) := by
  intro ts
  induction ts with
  | nil =>
    intro b bs tool s _ h2 heq
    unfold findBestMentioned at heq
    injection heq with hb hs
    obtain ⟨hm, hsc, hpos⟩ := h2 tool hb
    subst hs
    exact ⟨hm, hsc, hpos, Or.inr hb, Nat.le_refl _, by simp⟩
  | cons t rest ih =>
    intro b bs tool s h1 h2 heq
    unfold findBestMentioned at heq
    cases hm : guidanceMentions gl t with
    | false =>
      rw [hm] at heq
      simp only [Bool.false_eq_true, if_false] at heq
      obtain ⟨ha, hb, hc, hd, he, hf⟩ := ih b bs tool s h1 h2 heq
      refine ⟨ha, hb, hc, ?_, he, ?_⟩
      · rcases hd with hd | hd
        · exact Or.inl (List.mem_cons_of_mem t hd)
        · exact Or.inr hd
      · intro u hu hmu
        rcases List.mem_cons.1 hu with rfl | hu2
        · rw [hmu] at hm; cases hm
        · exact hf u hu2 hmu
    | true =>
      rw [hm] at heq
      simp only [if_true] at heq
      by_cases hlt : bs < calculateToolRelevanceScore patterns ql t
      · rw [if_pos hlt] at heq
        obtain ⟨ha, hb, hc, hd, he, hf⟩ := ih (some t)
          (calculateToolRelevanceScore patterns ql t) tool s
          (by intro h; cases h)
          (by
            intro u hu
            injection hu with hu2
            subst hu2
            exact ⟨hm, rfl, by omega⟩)
          heq
        refine ⟨ha, hb, hc, ?_, by omega, ?_⟩
        · rcases hd with hd | hd
          · exact Or.inl (List.mem_cons_of_mem t hd)
          · injection hd with hd2
            subst hd2
            exact Or.inl (List.mem_cons_self _ _)
        · intro u hu hmu
          rcases List.mem_cons.1 hu with rfl | hu2
          · omega
          · exact hf u hu2 hmu
      · rw [if_neg hlt] at heq
        obtain ⟨ha, hb, hc, hd, he, hf⟩ := ih b bs tool s h1 h2 heq
        refine ⟨ha, hb, hc, ?_, he, ?_⟩
        · rcases hd with hd | hd
          · exact Or.inl (List.mem_cons_of_mem t hd)
          · exact Or.inr hd
        · intro u hu hmu
          rcases List.mem_cons.1 hu with rfl | hu2
          · omega
          · exact hf u hu2 hmu

theorem scanToolsLines_error_msg :
    ∀ (ls : List String) (msg : String),
      scanToolsLines ls = .error msg → msg = "No valid tools found in SSE response" := by
  intro ls
  induction ls with
  | nil =>
    intro msg h
    injection h with h2
    exact h2.symm
  | cons l rest ih =>
    intro msg h
    unfold scanToolsLines at h
    repeat split at h
    all_goals first | exact ih msg h | cases h

theorem scanToolsLines_no_data :
    ∀ (ls : List String), (∀ l ∈ ls, strBegins l "data: " = false) →
      scanToolsLines ls = .error "No valid tools found in SSE response" := by
  intro ls
  induction ls with
  | nil => intro _; rfl
  | cons l rest ih =>
    intro h
    unfold scanToolsLines
    rw [h l (List.mem_cons_self l rest)]
    simp only [Bool.false_eq_true, if_false]
    exact ih (fun u hu => h u (List.mem_cons_of_mem l hu))

theorem scanResultLines_none :
    ∀ (ls : List String), (∀ l ∈ ls, lineResultObj l = none) →
      scanResultLines ls = none := by
  intro ls
  induction ls with
  | nil => intro _; rfl
  | cons l rest ih =>
    intro h
    unfold scanResultLines
    rw [h l (List.mem_cons_self l rest)]
    exact ih (fun u hu => h u (List.mem_cons_of_mem l hu))

theorem statusErrMsg_ne_exhaustedMsg (x : String) :
    "Failed to fetch tools from Supabase MCP: " ++ x
      ≠ "Failed to fetch tools from Supabase MCP after 3 attempts" := by
  intro h
  have h1 := strBegins_append "Failed to fetch tools from Supabase MCP: " x
  rw [h] at h1
  have h2 : strBegins "Failed to fetch tools from Supabase MCP after 3 attempts"
      "Failed to fetch tools from Supabase MCP: " = false := by decide
  rw [h1] at h2
  cases h2

theorem decodeGetToolsBody_ne_exhaustedMsg (body : String) :
    decodeGetToolsBody body
      ≠ .error "Failed to fetch tools from Supabase MCP after 3 attempts" := by
  intro h
  have h2 := scanToolsLines_error_msg (respLines body) _ h
  exact absurd h2 (by decide)

theorem statusErrExcept_ne (x : String) :
    (Except.error ("Failed to fetch tools from Supabase MCP: " ++ x) : Except String (List Json))
      ≠ .error "Failed to fetch tools from Supabase MCP after 3 attempts" := by
  intro h
  injection h with h2
  exact statusErrMsg_ne_exhaustedMsg x h2

/-! ## Claim theorems -/

/-- C1: a discovery call answered 429 three times makes exactly 3
attempts, sleeping 2 then 4 seconds between them, and then fails — but
with the generic per-status error of the fall-through branch, not the
dedicated rate-limit-exhaustion error: the "after 3 attempts" message
of the code is unreachable for every transport behaviour, so the
specified `RateLimitExhausted` outcome can never be produced. -/
theorem claim1_rate_limit_exhaustion :
    getToolsModel (fun _ => ⟨429, ""⟩)
      = ⟨.error "Failed to fetch tools from Supabase MCP: 429 Too Many Requests", [2, 4], 3⟩
    ∧ ∀ transport : Nat → HttpResp,
        (getToolsModel transport).result
          ≠ .error "Failed to fetch tools from Supabase MCP after 3 attempts" := by
  constructor
  · rfl
  · intro transport
    show (getToolsLoop transport [] [1, 2, 3]).result ≠ _
    simp only [getToolsLoop]
    split_ifs with h1 h2 h3 h4 h5 h6 <;>
      first
        | exact decodeGetToolsBody_ne_exhaustedMsg _
        | exact statusErrExcept_ne _
        | simp at h6

/-- C3 counterexample: a bare JSON-RPC discovery body that parses and
carries a non-null `result.tools` array is nevertheless rejected by
`get_tools` with the decode error, because discovery scans only
`data: ` lines and has no bare-JSON fallback. -/
theorem claim3_counterexample :
    parseJson "\x7b\"jsonrpc\":\"2.0\",\"id\":1,\"result\":\x7b\"tools\":[\x7b\"name\":\"t1\"\x7d]\x7d\x7d"
      = some (Json.obj [("jsonrpc", Json.str "2.0"), ("id", Json.num 1),
          ("result", Json.obj [("tools", Json.arr [Json.obj [("name", Json.str "t1")]])])])
    ∧ jGet (jGet (Json.obj [("jsonrpc", Json.str "2.0"), ("id", Json.num 1),
          ("result", Json.obj [("tools", Json.arr [Json.obj [("name", Json.str "t1")]])])])
          "result") "tools"
        = Json.arr [Json.obj [("name", Json.str "t1")]]
    ∧ decodeGetToolsBody "\x7b\"jsonrpc\":\"2.0\",\"id\":1,\"result\":\x7b\"tools\":[\x7b\"name\":\"t1\"\x7d]\x7d\x7d"
        = .error "No valid tools found in SSE response" :=
  ⟨rfl, rfl, rfl⟩

/-- C3 amended: discovery handles only the SSE framing.  Every 2xx
body without a `data: ` line — including a bare JSON-RPC envelope
carrying `result.tools` — fails with the decode error, while a
`data: ` line whose payload parses to an envelope with a `result.tools`
array yields that array. -/
theorem claim3_sse_only_framing :
    (∀ body : String, (∀ l ∈ respLines body, strBegins l "data: " = false) →
      decodeGetToolsBody body = .error "No valid tools found in SSE response")
    ∧ ∀ (s : String) (v : Json) (tools : List Json) (rest : List String),
        parseJson s = some v → jGet (jGet v "result") "tools" = Json.arr tools →
        scanToolsLines (("data: " ++ s) :: rest) = .ok tools := by
  constructor
  · intro body h
    exact scanToolsLines_no_data (respLines body) h
  · intro s v tools rest hp hg
    unfold scanToolsLines
    rw [strBegins_append, strDropN_append "data: " s 6 rfl]
    simp [hp, hg]

/-- C3 witness: the amended theorem applied to the bare-JSON body of
the counterexample and to a one-line SSE body with an empty tools
array. -/
theorem claim3_sse_only_framing_witness :
    decodeGetToolsBody "\x7b\"jsonrpc\":\"2.0\",\"id\":1,\"result\":\x7b\"tools\":[\x7b\"name\":\"t1\"\x7d]\x7d\x7d"
      = .error "No valid tools found in SSE response"
    ∧ scanToolsLines [("data: " ++ "\x7b\"result\":\x7b\"tools\":[]\x7d\x7d")] = .ok [] := by
  constructor
  · refine claim3_sse_only_framing.1 _ ?_
    intro l hl
    have hlines : respLines "\x7b\"jsonrpc\":\"2.0\",\"id\":1,\"result\":\x7b\"tools\":[\x7b\"name\":\"t1\"\x7d]\x7d\x7d"
        = ["\x7b\"jsonrpc\":\"2.0\",\"id\":1,\"result\":\x7b\"tools\":[\x7b\"name\":\"t1\"\x7d]\x7d\x7d"] := rfl
    rw [hlines, List.mem_singleton] at hl
    subst hl
    rfl
  · exact claim3_sse_only_framing.2 "\x7b\"result\":\x7b\"tools\":[]\x7d\x7d"
      (Json.obj [("result", Json.obj [("tools", Json.arr [])])]) [] [] rfl rfl

/-- C10: a 2xx invocation response whose every `data: ` line fails to
yield an object-valued `result`, and whose whole body also fails to
yield one, is rejected with the decode error — so an invocation
succeeds only when the extracted JSON-RPC `result` is a JSON object;
a `result` that is a string, number, array, boolean or null fails on
both framing paths. -/
theorem claim10_execute_result_must_be_object :
    ∀ body : String,
      (∀ l ∈ respLines body, lineResultObj l = none) →
      bodyResultObj body = none →
      decodeExecuteToolBody body = .error "No valid result found in response" := by
  intro body h1 h2
  unfold decodeExecuteToolBody
  rw [scanResultLines_none (respLines body) h1, h2]

/-- C10 witness: a bare JSON-RPC invocation body whose `result` is the
array `[1,2,3]` fails with the decode error. -/
theorem claim10_witness :
    decodeExecuteToolBody "\x7b\"jsonrpc\":\"2.0\",\"id\":2,\"result\":[1,2,3]\x7d"
      = .error "No valid result found in response" := by
  refine claim10_execute_result_must_be_object _ ?_ rfl
  intro l hl
  have hlines : respLines "\x7b\"jsonrpc\":\"2.0\",\"id\":2,\"result\":[1,2,3]\x7d"
      = ["\x7b\"jsonrpc\":\"2.0\",\"id\":2,\"result\":[1,2,3]\x7d"] := rfl
  rw [hlines, List.mem_singleton] at hl
  subst hl
  rfl

/-- C5: candidates are ordered descending by total relevance score with
ties keeping catalog discovery order (characterized by: the sorted list
is pairwise non-increasing, and restricting it to any one score value
gives exactly the catalog-order sublist of that score), and a tool is
selected and invoked if and only if the top score is strictly positive;
otherwise the no-match suggestion path is taken. -/
theorem claim5_descending_stable_selection :
    ∀ (catalog : List ToolInfo) (query llmGuidance : String),
      (sortScoredDesc (catalog.map (fun tool =>
        (calculateToolRelevanceScore linearPatterns (strLower query) tool, tool)))).Pairwise
          (fun a b => b.1 ≤ a.1)
      ∧ (∀ s : Nat,
          (sortScoredDesc (catalog.map (fun tool =>
            (calculateToolRelevanceScore linearPatterns (strLower query) tool, tool)))).filter
              (fun z => z.1 == s)
            = (catalog.map (fun tool =>
                (calculateToolRelevanceScore linearPatterns (strLower query) tool, tool))).filter
              (fun z => z.1 == s))
      ∧ ((∃ t ∈ catalog, 0 < calculateToolRelevanceScore linearPatterns (strLower query) t) ↔
          ∃ tool args, tryExecuteLinearOperationWithGuidance catalog query llmGuidance
            = .invoke tool args)
      ∧ ((∃ t ∈ catalog, 0 < calculateToolRelevanceScore linearPatterns (strLower query) t) ∨
          tryExecuteLinearOperationWithGuidance catalog query llmGuidance
            = .suggest (noMatchMessage "Linear" query catalog)) := by
  intro catalog query llmGuidance
  refine ⟨sortScoredDesc_pairwise _, fun s => sortScoredDesc_filter _ s, ?_, ?_⟩
  · exact tryExecuteOperation_invoke_iff linearPatterns "Linear"
      linearCreateDynamicArguments catalog query
  · by_cases hex : ∃ t ∈ catalog, 0 < calculateToolRelevanceScore linearPatterns (strLower query) t
    · exact Or.inl hex
    · refine Or.inr ?_
      refine tryExecuteOperation_suggest linearPatterns "Linear"
        linearCreateDynamicArguments catalog query ?_
      intro t ht
      by_contra hne
      exact hex ⟨t, ht, by omega⟩

/-- C6: the relevance score is a sum of non-negative weights gated on
substring matches, so it is monotone in the match profile: a tool whose
lowercased name and description contain every substring the other's
contain (and possibly more) scores greater than or equal to the other,
all other inputs held constant. -/
theorem claim6_score_monotonicity :
    ∀ (patterns : List ScorePattern) (queryLower : String) (t1 t2 : ToolInfo),
      (∀ s : String, strHas (strLower t1.name) s = true →
        strHas (strLower t2.name) s = true) →
      (∀ s : String, strHas (strLower t1.description) s = true →
        strHas (strLower t2.description) s = true) →
      calculateToolRelevanceScore patterns queryLower t1
        ≤ calculateToolRelevanceScore patterns queryLower t2 :=
  fun patterns queryLower t1 t2 hname hdesc =>
    score_monotone patterns queryLower t1 t2 hname hdesc

/-- C6 witness: the monotonicity theorem applied at a concrete tool
against itself, where both match-profile hypotheses hold trivially. -/
theorem claim6_score_monotonicity_witness :
    calculateToolRelevanceScore linearPatterns "list issues"
        ⟨"LIST_ISSUES", "List all issues", Json.null⟩
      ≤ calculateToolRelevanceScore linearPatterns "list issues"
        ⟨"LIST_ISSUES", "List all issues", Json.null⟩ :=
  claim6_score_monotonicity linearPatterns "list issues"
    ⟨"LIST_ISSUES", "List all issues", Json.null⟩
    ⟨"LIST_ISSUES", "List all issues", Json.null⟩
    (fun _ h => h) (fun _ h => h)

/-- C7: when the catalog has more than 5 tools and no tool scores above
zero, the result is the no-match message, whose suggestion list is
exactly the first 5 catalog entries in discovery order, each shown as
its name plus its description truncated to 80 characters. -/
theorem claim7_no_match_suggestions :
    ∀ (query llmGuidance : String) (catalog : List ToolInfo),
      5 < catalog.length →
      (∀ t ∈ catalog, calculateToolRelevanceScore linearPatterns (strLower query) t = 0) →
      tryExecuteLinearOperationWithGuidance catalog query llmGuidance
          = .suggest (noMatchMessage "Linear" query catalog)
      ∧ suggestionLines catalog
          = (catalog.take 5).map (fun tool =>
              "- " ++ tool.name ++ ": " ++ strTake tool.description 80)
      ∧ (suggestionLines catalog).length = 5 := by
  intro query llmGuidance catalog h5 hz
  refine ⟨?_, rfl, ?_⟩
  · exact tryExecuteOperation_suggest linearPatterns "Linear"
      linearCreateDynamicArguments catalog query hz
  · unfold suggestionLines
    rw [List.length_map, List.length_take]
    omega

/-- C7 witness: a 6-tool catalog with the keyword-free query, where the
suggestion list has exactly 5 entries. -/
theorem claim7_no_match_suggestions_witness :
    tryExecuteLinearOperationWithGuidance
        [⟨"A1", "d1", Json.null⟩, ⟨"A2", "d2", Json.null⟩, ⟨"A3", "d3", Json.null⟩,
         ⟨"A4", "d4", Json.null⟩, ⟨"A5", "d5", Json.null⟩, ⟨"A6", "d6", Json.null⟩]
        "xyzzy" ""
      = .suggest (noMatchMessage "Linear" "xyzzy"
          [⟨"A1", "d1", Json.null⟩, ⟨"A2", "d2", Json.null⟩, ⟨"A3", "d3", Json.null⟩,
           ⟨"A4", "d4", Json.null⟩, ⟨"A5", "d5", Json.null⟩, ⟨"A6", "d6", Json.null⟩])
    ∧ (suggestionLines
        [⟨"A1", "d1", Json.null⟩, ⟨"A2", "d2", Json.null⟩, ⟨"A3", "d3", Json.null⟩,
         ⟨"A4", "d4", Json.null⟩, ⟨"A5", "d5", Json.null⟩, ⟨"A6", "d6", Json.null⟩]).length
      = 5 := by
  have h := claim7_no_match_suggestions "xyzzy" ""
    [⟨"A1", "d1", Json.null⟩, ⟨"A2", "d2", Json.null⟩, ⟨"A3", "d3", Json.null⟩,
     ⟨"A4", "d4", Json.null⟩, ⟨"A5", "d5", Json.null⟩, ⟨"A6", "d6", Json.null⟩]
    (by decide) (by decide)
  exact ⟨h.1, h.2.2⟩

/-- C9 counterexample: the query "xyzzy" does overlap no keyword of the
scoring table, yet against the non-empty catalog whose single tool is
named "xyzzy" the token boost fires (+0.5 for a query token contained
in the tool name), the score is positive, and the tool is invoked —
not the no-match suggestion path. -/
theorem claim9_counterexample :
    tryExecuteLinearOperationWithGuidance [⟨"xyzzy", "", Json.null⟩] "xyzzy" ""
      = .invoke ⟨"xyzzy", "", Json.null⟩ (Json.obj []) := rfl

/-- C9 amended: the query "xyzzy" takes the no-match suggestion path
with a positive-length suggestion list and no tool invocation against
every non-empty catalog in which no tool name or description contains
"xyzzy" as a substring. -/
theorem claim9_xyzzy_no_match :
    ∀ (catalog : List ToolInfo) (llmGuidance : String),
      catalog ≠ [] →
      (∀ t ∈ catalog, strHas (strLower t.name) "xyzzy" = false ∧
        strHas (strLower t.description) "xyzzy" = false) →
      tryExecuteLinearOperationWithGuidance catalog "xyzzy" llmGuidance
          = .suggest (noMatchMessage "Linear" "xyzzy" catalog)
      ∧ 0 < (suggestionLines catalog).length := by
  intro catalog llmGuidance hne h
  constructor
  · refine tryExecuteOperation_suggest linearPatterns "Linear"
      linearCreateDynamicArguments catalog "xyzzy" ?_
    intro t ht
    refine score_eq_zero linearPatterns (strLower "xyzzy") t (by decide) ?_ ?_
    · intro w hw
      have hsp : splitWhitespace (strLower "xyzzy") = ["xyzzy"] := rfl
      rw [hsp, List.mem_singleton] at hw
      subst hw
      exact (h t ht).1
    · intro w hw
      have hsp : splitWhitespace (strLower "xyzzy") = ["xyzzy"] := rfl
      rw [hsp, List.mem_singleton] at hw
      subst hw
      exact (h t ht).2
  · unfold suggestionLines
    rw [List.length_map, List.length_take]
    have := List.length_pos.2 hne
    omega

/-- C9 witness: the amended theorem applied to a one-tool catalog whose
name and description avoid the substring "xyzzy". -/
theorem claim9_xyzzy_no_match_witness :
    tryExecuteLinearOperationWithGuidance [⟨"ALPHA", "alpha", Json.null⟩] "xyzzy" ""
        = .suggest (noMatchMessage "Linear" "xyzzy" [⟨"ALPHA", "alpha", Json.null⟩])
    ∧ 0 < (suggestionLines [⟨"ALPHA", "alpha", Json.null⟩]).length :=
  claim9_xyzzy_no_match [⟨"ALPHA", "alpha", Json.null⟩] "" (by simp) (by decide)

theorem llmGuidance_unfold (patterns : List ScorePattern) (provider : String)
    (mkArgs : String → Json → String → Json) (catalog : List ToolInfo)
    (query llmGuidance : String) :
    tryExecuteOperationWithLlmGuidance patterns provider mkArgs catalog query llmGuidance =
      match findBestMentioned patterns (strLower query) (strLower llmGuidance)
          catalog (none, 0) with
      | (some tool, _) => .invoke tool (mkArgs tool.name tool.inputSchema query)
      | (none, _) => tryExecuteOperation patterns provider mkArgs catalog query := rfl

/-- C2 counterexample: the LLM reply mentions only the tool "ALPHA"
(whose relevance score for the query is 0); the loop keeps a mentioned
tool only when its score strictly exceeds the running best of 0.0, so
no mentioned tool is kept, the scorer fallback runs on the raw query,
and it invokes "LIST_ISSUES" — a tool the reply does not mention —
contradicting the claim that a mentioned tool is selected whenever at
least one tool is mentioned. -/
theorem claim2_counterexample :
    guidanceMentions (strLower "I would use ALPHA") ⟨"ALPHA", "alphadesc", Json.null⟩ = true
    ∧ guidanceMentions (strLower "I would use ALPHA")
        ⟨"LIST_ISSUES", "List all issues", Json.null⟩ = false
    ∧ tryExecuteLinearOperationWithLlmGuidance
        [⟨"ALPHA", "alphadesc", Json.null⟩, ⟨"LIST_ISSUES", "List all issues", Json.null⟩]
        "list issues" "I would use ALPHA"
      = .invoke ⟨"LIST_ISSUES", "List all issues", Json.null⟩
          (Json.obj [("first", Json.num 10), ("orderBy", Json.str "updatedAt")]) :=
  ⟨by decide, by decide, rfl⟩

/-- C2 amended: if the LLM reply mentions at least one catalog tool of
strictly positive relevance score for the query, the invoked tool is a
mentioned tool of maximal score among the mentioned ones, preferred
over the scorer's pick; if every mentioned tool scores 0, selection
falls back entirely to running the scorer on the raw query with an
empty guidance string. -/
theorem claim2_mention_guidance :
    ∀ (catalog : List ToolInfo) (query llmGuidance : String),
      ((∃ t ∈ catalog, guidanceMentions (strLower llmGuidance) t = true ∧
          0 < calculateToolRelevanceScore linearPatterns (strLower query) t) →
        ∃ tool ∈ catalog, guidanceMentions (strLower llmGuidance) tool = true ∧
          0 < calculateToolRelevanceScore linearPatterns (strLower query) tool ∧
          (∀ u ∈ catalog, guidanceMentions (strLower llmGuidance) u = true →
            calculateToolRelevanceScore linearPatterns (strLower query) u ≤
              calculateToolRelevanceScore linearPatterns (strLower query) tool) ∧
          tryExecuteLinearOperationWithLlmGuidance catalog query llmGuidance
            = .invoke tool (linearCreateDynamicArguments tool.name tool.inputSchema query))
      ∧ ((∀ t ∈ catalog, guidanceMentions (strLower llmGuidance) t = true →
            calculateToolRelevanceScore linearPatterns (strLower query) t = 0) →
          tryExecuteLinearOperationWithLlmGuidance catalog query llmGuidance
            = tryExecuteLinearOperationWithGuidance catalog query "") := by
  intro catalog query llmGuidance
  constructor
  · rintro ⟨t, ht, hm, hpos⟩
    rcases hr : findBestMentioned linearPatterns (strLower query) (strLower llmGuidance)
        catalog (none, 0) with ⟨b, s⟩
    cases b with
    | none =>
      exfalso
      obtain ⟨-, hall⟩ := findBestMentioned_none linearPatterns (strLower query)
        (strLower llmGuidance) catalog none 0 (by rw [hr])
      have := hall t ht hm
      omega
    | some tool =>
      obtain ⟨ha, hb, hc, hd, -, hf⟩ := findBestMentioned_some linearPatterns
        (strLower query) (strLower llmGuidance) catalog none 0 tool s
        (fun _ => rfl) (by intro u hu; cases hu) hr
      refine ⟨tool, ?_, ha, by omega, ?_, ?_⟩
      · rcases hd with hd | hd
        · exact hd
        · cases hd
      · intro u hu hmu
        have := hf u hu hmu
        omega
      · show tryExecuteOperationWithLlmGuidance linearPatterns "Linear"
          linearCreateDynamicArguments catalog query llmGuidance = _
        rw [llmGuidance_unfold, hr]
  · intro hall
    have h0 : findBestMentioned linearPatterns (strLower query) (strLower llmGuidance)
        catalog (none, 0) = (none, 0) :=
      findBestMentioned_const linearPatterns (strLower query) (strLower llmGuidance)
        catalog none 0 (fun t ht hm => le_of_eq (hall t ht hm))
    show tryExecuteOperationWithLlmGuidance linearPatterns "Linear"
      linearCreateDynamicArguments catalog query llmGuidance = _
    rw [llmGuidance_unfold, h0]
    rfl

/-- C2 witness: the amended theorem's mentioned-tool branch at a
one-tool catalog whose tool is mentioned by the reply and scores
positively on the query. -/
theorem claim2_mention_guidance_witness :
    ∃ tool ∈ [(⟨"LIST_ISSUES", "List all issues", Json.null⟩ : ToolInfo)],
      guidanceMentions (strLower "use LIST_ISSUES") tool = true ∧
      0 < calculateToolRelevanceScore linearPatterns (strLower "list issues") tool ∧
      (∀ u ∈ [(⟨"LIST_ISSUES", "List all issues", Json.null⟩ : ToolInfo)],
        guidanceMentions (strLower "use LIST_ISSUES") u = true →
        calculateToolRelevanceScore linearPatterns (strLower "list issues") u ≤
          calculateToolRelevanceScore linearPatterns (strLower "list issues") tool) ∧
      tryExecuteLinearOperationWithLlmGuidance
          [(⟨"LIST_ISSUES", "List all issues", Json.null⟩ : ToolInfo)]
          "list issues" "use LIST_ISSUES"
        = .invoke tool (linearCreateDynamicArguments tool.name tool.inputSchema "list issues") :=
  (claim2_mention_guidance [(⟨"LIST_ISSUES", "List all issues", Json.null⟩ : ToolInfo)]
      "list issues" "use LIST_ISSUES").1
    ⟨⟨"LIST_ISSUES", "List all issues", Json.null⟩, List.mem_singleton.mpr rfl,
      by decide, by decide⟩

/-- C4 counterexample: the Supabase synthesizer embeds the wall-clock
timestamp into insert payloads, so synthesizing twice for the same
(tool name, query) at different instants yields different payloads. -/
theorem claim4_counterexample :
    supabaseCreateDynamicArguments "insert_record" Json.null "add a row"
        "2024-01-01T00:00:00+00:00"
      ≠ supabaseCreateDynamicArguments "insert_record" Json.null "add a row"
        "2024-01-01T00:00:01+00:00" := by
  intro h
  have h2 := congrArg (fun j => match j with
    | Json.obj (_ :: (_, Json.obj (_ :: (_, Json.str s) :: _)) :: _) => s
    | _ => "") h
  exact absurd h2 (by decide)

/-- C4 amended: the Linear synthesizer is a pure function of
(tool name, query), and the Supabase synthesizer is time-independent —
hence idempotent — whenever the lowercased tool name avoids the
timestamped insert/create and update/modify branches; tool names
routed to those branches embed the call-time timestamp. -/
theorem claim4_time_independent_idempotence :
    ∀ (toolName : String) (inputSchema : Json) (query now1 now2 : String),
      strHas (strLower toolName) "insert" = false →
      strHas (strLower toolName) "create" = false →
      strHas (strLower toolName) "update" = false →
      strHas (strLower toolName) "modify" = false →
      supabaseCreateDynamicArguments toolName inputSchema query now1
        = supabaseCreateDynamicArguments toolName inputSchema query now2 := by
  intro toolName inputSchema query now1 now2 h1 h2 h3 h4
  simp only [supabaseCreateDynamicArguments, h1, h2, h3, h4, Bool.or_self,
    Bool.false_eq_true, if_false]

/-- C4 witness: the amended theorem at a list-style tool name, whose
payload is identical across two distinct timestamps. -/
theorem claim4_time_independent_idempotence_witness :
    supabaseCreateDynamicArguments "list_tables" Json.null "show tables" "t1"
      = supabaseCreateDynamicArguments "list_tables" Json.null "show tables" "t2" :=
  claim4_time_independent_idempotence "list_tables" Json.null "show tables" "t1" "t2"
    (by decide) (by decide) (by decide) (by decide)

/-- C8 counterexample: a tool whose lowercased name contains both
"create" and "issue" but also "list" is captured by the earlier
list-and-issue branch and receives the pagination payload, not the
title/description payload the claim requires. -/
theorem claim8_counterexample :
    strHas (strLower "CREATE_LIST_ISSUE") "create" = true
    ∧ strHas (strLower "CREATE_LIST_ISSUE") "issue" = true
    ∧ linearCreateDynamicArguments "CREATE_LIST_ISSUE" Json.null "found a bug"
        = Json.obj [("first", Json.num 10), ("orderBy", Json.str "updatedAt")]
    ∧ linearCreateDynamicArguments "CREATE_LIST_ISSUE" Json.null "found a bug"
        ≠ Json.obj [("title", Json.str "Bug Report"),
            ("description", Json.str "found a bug")] := by
  refine ⟨by decide, by decide, rfl, ?_⟩
  intro h
  have h2 := congrArg (fun j => match j with
    | Json.obj ((k, _) :: _) => k
    | _ => "") h
  exact absurd h2 (by decide)

/-- C8 amended: for a tool whose lowercased name contains "create" and
"issue" and not "list" (so the earlier list-and-issue branch does not
capture it), the payload's title is "Bug Report" when the query
contains "bug", else "Feature Request" when it contains "feature",
else the first 50 characters of the query, and the description is the
full query text. -/
theorem claim8_create_issue_arguments :
    ∀ (toolName : String) (inputSchema : Json) (query : String),
      strHas (strLower toolName) "create" = true →
      strHas (strLower toolName) "issue" = true →
      strHas (strLower toolName) "list" = false →
      linearCreateDynamicArguments toolName inputSchema query
        = Json.obj [("title", Json.str (
            if strHas query "bug" then "Bug Report"
            else if strHas query "feature" then "Feature Request"
            else strTake query 50)), ("description", Json.str query)] := by
  intro toolName inputSchema query hc hi hl
  simp only [linearCreateDynamicArguments, hc, hi, hl, Bool.false_and, Bool.and_self,
    Bool.false_eq_true, if_false, if_true]

/-- C8 witness: the amended theorem at the tool name "CREATE_ISSUE"
and a query containing "bug". -/
theorem claim8_create_issue_arguments_witness :
    linearCreateDynamicArguments "CREATE_ISSUE" Json.null "fix the bug"
      = Json.obj [("title", Json.str "Bug Report"),
          ("description", Json.str "fix the bug")] :=
  (claim8_create_issue_arguments "CREATE_ISSUE" Json.null "fix the bug"
    (by decide) (by decide) (by decide)).trans rfl

end Codepilot
